import Mathlib

/-!
Shallow embedding of the TenacityTracker client-side state container.

Sources embedded:
* `src/unnamed/part_000` — the `appReducer` transition function together with
  its state/action types (`AppState`, `AppAction`) and the data model
  (`Rep`, `Milestone`, `SubTask`, `AuditLog`, `AppUser`, `FieldTrainer`).
* `src/client/src/lib/checklist-data.ts` — the checklist-catalog accessors
  `getStepById` and `createMilestoneFromStep`.

Modelling conventions:
* JavaScript `Date` values and ISO timestamp strings are both modelled as
  abstract `Nat` ticks; `new Date()` / `Date.now()` read the ambient clock.
* `generateId()` reads an ambient fresh-id string.  Both ambient reads are
  packaged in an `Ambient` record passed alongside each dispatch, mirroring
  the spec's "current timestamp and current user are read from ambient
  context passed alongside the action".
* Optional / possibly-`undefined` fields become `Option`.
* The reducer's defensive normalisations (`Array.isArray(rep.milestones)`,
  `if (!milestone.subTasks) milestone.subTasks = []`) are identities in the
  typed model, where those fields are always lists.
* The typed action type is exhaustive, so the reducer's `default: return
  state` branch has no separate representative.
-/

namespace TenacityTracker

/-- One subtask of a milestone (`SubTask` in `@shared/schema`). -/
structure SubTask where
  taskId : String
  description : String
  completed : Bool
  completedAt : Option Nat
  completedBy : Option String
deriving DecidableEq, Repr

/-- One milestone of a rep (`Milestone` in `@shared/schema`). -/
structure Milestone where
  stepId : Int
  title : String
  completed : Bool
  completedAt : Option Nat
  completedBy : Option String
  subTasks : List SubTask
deriving DecidableEq, Repr

/-- A trainee record (`Rep` in `@shared/schema`); `name` stands for the
domain fields that the reducer treats as opaque. -/
structure Rep where
  id : String
  name : String
  stage : Int
  milestones : List Milestone
  createdAt : Nat
  updatedAt : Nat
deriving DecidableEq, Repr

/-- User role, `'trainer' | 'admin'`. -/
inductive Role where
  | trainer
  | admin
deriving DecidableEq, Repr

/-- The signed-in user (`AppUser`); only `id` and `role` are touched by the
reducer, `name` stands for the rest. -/
structure AppUser where
  id : String
  name : String
  role : Option Role
deriving DecidableEq, Repr

/-- A field trainer (`FieldTrainer`), read-only in this core. -/
structure FieldTrainer where
  id : String
  name : String
  createdAt : Nat
deriving DecidableEq, Repr

/-- An audit-log record (`AuditLog`); `entry` stands for the payload fields
(`Omit<AuditLog, 'id' | 'timestamp'>`), which the reducer treats as opaque. -/
structure AuditLog where
  id : Nat
  timestamp : Nat
  entry : String
deriving DecidableEq, Repr

/-- The application state (`AppState` in `src/unnamed/part_000`). -/
structure AppState where
  isAuthenticated : Bool
  currentUser : Option AppUser
  userRole : Option Role
  reps : List Rep
  trainers : List FieldTrainer
  auditLogs : List AuditLog
  selectedRep : Option Rep
deriving DecidableEq, Repr

/-- Payload of `ADD_REP`: `Omit<Rep, 'id' | 'createdAt' | 'updatedAt'>`. -/
structure NewRepPayload where
  name : String
  stage : Int
  milestones : List Milestone
deriving DecidableEq, Repr

/-- Payload of `UPDATE_REP.updates`: `Partial<Rep>`, one `Option` per field.
(`updatedAt`, if supplied, is overridden by the reducer's own refresh.) -/
structure RepPatch where
  id : Option String
  name : Option String
  stage : Option Int
  milestones : Option (List Milestone)
  createdAt : Option Nat
  updatedAt : Option Nat
deriving DecidableEq, Repr

/-- The action union (`AppAction` in `src/unnamed/part_000`). -/
inductive AppAction where
  | signIn (user : AppUser)
  | signOut
  | setRole (role : Role)
  | addRep (payload : NewRepPayload)
  | updateRep (id : String) (updates : RepPatch)
  | selectRep (rep : Option Rep)
  | updateSubtask (repId : String) (stepId : Int) (taskId : String) (completed : Bool)
  | addAuditLog (entry : String)
deriving DecidableEq, Repr

/-- Ambient context read by the reducer: `new Date()` / `Date.now()` and
`generateId()`. -/
structure Ambient where
  now : Nat
  freshId : String
deriving DecidableEq, Repr

/-- The milestone synthesized by the cascade when the step has no entry:
`{stepId, title: Step N, completed: false, subTasks: []}`. -/
def mkPlaceholderMilestone (stepId : Int) : Milestone :=
  { stepId := stepId
    title := "Step " ++ toString stepId
    completed := false
    completedAt := none
    completedBy := none
    subTasks := [] }

/-- The subtask synthesized by the cascade when the task has no entry:
`{taskId, description: Task N, completed: false}`. -/
def mkPlaceholderSubTask (taskId : String) : SubTask :=
  { taskId := taskId
    description := "Task " ++ taskId
    completed := false
    completedAt := none
    completedBy := none }

/-- Lines 110–122 of the reducer: look the milestone up with `find`, push a
placeholder onto the list when it is absent. -/
def ensureMilestone (stepId : Int) (milestones : List Milestone) : List Milestone :=
  match milestones.find? (fun m => m.stepId == stepId) with
  | some _ => milestones
  | none => milestones ++ [mkPlaceholderMilestone stepId]

/-- Lines 133–140 of the reducer: look the subtask up with `find`, push a
placeholder onto the list when it is absent. -/
def ensureSubTask (taskId : String) (subTasks : List SubTask) : List SubTask :=
  match subTasks.find? (fun t => t.taskId == taskId) with
  | some _ => subTasks
  | none => subTasks ++ [mkPlaceholderSubTask taskId]

/-- Lines 142–150 of the reducer: the per-subtask map body setting the target
subtask's `completed` flag and stamps. -/
def toggleSubTask (now : Nat) (user : Option String) (taskId : String) (completed : Bool)
    (task : SubTask) : SubTask :=
  if task.taskId == taskId then
    { task with
      completed := completed
      completedAt := if completed then some now else none
      completedBy := if completed then user else none }
  else task

/-- Lines 124–162 of the reducer: the per-milestone map body.  For the
milestone matching `stepId` it ensures the subtask exists, toggles it,
recomputes `completed` as the AND over the updated subtasks and stamps the
milestone on a false-to-true transition. -/
def updateMilestone (now : Nat) (user : Option String) (stepId : Int) (taskId : String)
    (completed : Bool) (milestone : Milestone) : Milestone :=
  if milestone.stepId == stepId then
    let updatedSubTasks :=
      (ensureSubTask taskId milestone.subTasks).map (toggleSubTask now user taskId completed)
    let allSubTasksComplete := updatedSubTasks.all (fun t => t.completed)
    { milestone with
      completed := allSubTasksComplete
      completedAt :=
        if allSubTasksComplete && !milestone.completed then some now else milestone.completedAt
      completedBy :=
        if allSubTasksComplete && !milestone.completed then user else milestone.completedBy
      subTasks := updatedSubTasks }
  else milestone

/-- Lines 106–174 of the reducer: the per-rep map body of `UPDATE_SUBTASK`
for the rep whose id matches — ensure the milestone, update every milestone,
recompute `stage = max(stage, completedSteps + 1)` and refresh `updatedAt`. -/
def updateSubtaskRep (now : Nat) (user : Option String) (stepId : Int) (taskId : String)
    (completed : Bool) (rep : Rep) : Rep :=
  let updatedMilestones :=
    (ensureMilestone stepId rep.milestones).map
      (updateMilestone now user stepId taskId completed)
  let completedSteps := (updatedMilestones.filter (fun m => m.completed)).length
  { rep with
    milestones := updatedMilestones
    stage := max rep.stage ((completedSteps : Int) + 1)
    updatedAt := now }

/-- Lines 85–96 of the reducer: `{ ...rep, ...action.payload.updates,
updatedAt: new Date() }` — each supplied field wins over the rep's, and
`updatedAt` is refreshed last. -/
def mergeRep (rep : Rep) (updates : RepPatch) (now : Nat) : Rep :=
  { id := updates.id.getD rep.id
    name := updates.name.getD rep.name
    stage := updates.stage.getD rep.stage
    milestones := updates.milestones.getD rep.milestones
    createdAt := updates.createdAt.getD rep.createdAt
    updatedAt := now }

/-- The transition function `appReducer` of `src/unnamed/part_000`,
lines 46–198, with the ambient clock/id-generator made explicit. -/
def appReducer (amb : Ambient) (state : AppState) (action : AppAction) : AppState :=
  match action with
  | .signIn user =>
      { state with isAuthenticated := true, currentUser := some user }
  | .signOut =>
      { state with isAuthenticated := false, currentUser := none, userRole := none }
  | .setRole role =>
      { state with
        userRole := some role
        currentUser := state.currentUser.map (fun u => { u with role := some role }) }
  | .addRep payload =>
      let newRep : Rep :=
        { id := amb.freshId
          name := payload.name
          stage := payload.stage
          milestones := payload.milestones
          createdAt := amb.now
          updatedAt := amb.now }
      { state with reps := state.reps ++ [newRep] }
  | .updateRep id updates =>
      { state with
        reps := state.reps.map (fun rep =>
          if rep.id == id then mergeRep rep updates amb.now else rep)
        selectedRep :=
          match state.selectedRep with
          | some sel => if sel.id == id then some (mergeRep sel updates amb.now) else some sel
          | none => none }
  | .selectRep rep =>
      { state with selectedRep := rep }
  | .updateSubtask repId stepId taskId completed =>
      let updatedReps := state.reps.map (fun rep =>
        if rep.id == repId then
          updateSubtaskRep amb.now (state.currentUser.map (fun u => u.id))
            stepId taskId completed rep
        else rep)
      { state with
        reps := updatedReps
        selectedRep :=
          match state.selectedRep with
          | some sel =>
              if sel.id == repId then updatedReps.find? (fun r => r.id == repId) else some sel
          | none => none }
  | .addAuditLog entry =>
      { state with
        auditLogs := { id := amb.now, timestamp := amb.now, entry := entry } :: state.auditLogs }

/-- One subtask definition of the checklist catalog
(`checklist-steps.json` entry's `subTasks` element). -/
structure ChecklistTaskDef where
  taskId : String
  description : String
deriving DecidableEq, Repr

/-- One step definition of the checklist catalog. -/
structure ChecklistStep where
  stepId : Int
  title : String
  subTasks : List ChecklistTaskDef
deriving DecidableEq, Repr

/-- `getStepById` of `checklist-data.ts`, with the static catalog made an
explicit argument. -/
def getStepById (checklistSteps : List ChecklistStep) (stepId : Int) : Option ChecklistStep :=
  checklistSteps.find? (fun step => step.stepId == stepId)

/-- `createMilestoneFromStep` of `checklist-data.ts`. -/
def createMilestoneFromStep (checklistSteps : List ChecklistStep) (stepId : Int) :
    Option Milestone :=
  match getStepById checklistSteps stepId with
  | none => none
  | some step =>
      some
        { stepId := stepId
          title := step.title
          completed := false
          completedAt := none
          completedBy := none
          subTasks := step.subTasks.map (fun task =>
            { taskId := task.taskId
              description := task.description
              completed := false
              completedAt := none
              completedBy := none }) }

/-- One `UPDATE_SUBTASK` dispatch together with its ambient context. -/
structure SubtaskCall where
  amb : Ambient
  repId : String
  stepId : Int
  taskId : String
  completed : Bool
deriving DecidableEq, Repr

/-- Dispatch a sequence of `UPDATE_SUBTASK` actions, left to right. -/
def dispatchSubtaskCalls (s : AppState) (calls : List SubtaskCall) : AppState :=
  calls.foldl
    (fun st c => appReducer c.amb st (.updateSubtask c.repId c.stepId c.taskId c.completed)) s

/-- Concrete rep used by the witness scenarios. -/
def repW : Rep :=
  { id := "r1", name := "A", stage := 1, milestones := [], createdAt := 0, updatedAt := 0 }

/-- Concrete signed-in user used by the witness scenarios. -/
def userW : AppUser := { id := "u1", name := "T", role := some Role.trainer }

/-- Concrete state used by the witness scenarios. -/
def sW : AppState :=
  { isAuthenticated := true
    currentUser := some userW
    userRole := some Role.trainer
    reps := [repW]
    trainers := []
    auditLogs := []
    selectedRep := some repW }

/-- Concrete ambient context used by the witness scenarios. -/
def ambW : Ambient := { now := 10, freshId := "g1" }

/-- A rep that sits in `selectedRep` without appearing in the rep list
(`SELECT_REP` performs no validation, so such states are reachable). -/
def ghostRep : Rep :=
  { id := "gh", name := "G", stage := 1, milestones := [], createdAt := 0, updatedAt := 0 }

/-- State whose selection is `ghostRep` while the rep list holds only `repW`. -/
def sGhost : AppState := { sW with selectedRep := some ghostRep }

/-- Concrete partial update touching only `name`. -/
def patchB : RepPatch :=
  { id := none, name := some "B", stage := none, milestones := none
    createdAt := none, updatedAt := none }

/-- Concrete catalog entry used by the witness scenarios. -/
def stepC : ChecklistStep :=
  { stepId := 1
    title := "Orientation"
    subTasks := [{ taskId := "t1", description := "Watch intro" }] }

/-- The rep constructed by `ADD_REP` from `payload` under ambient `amb₁`. -/
def mkNewRep (amb₁ : Ambient) (payload : NewRepPayload) : Rep :=
  { id := amb₁.freshId
    name := payload.name
    stage := payload.stage
    milestones := payload.milestones
    createdAt := amb₁.now
    updatedAt := amb₁.now }

/-- The three-dispatch scenario of the spec's testable property: `ADD_REP`,
then `SELECT_REP` of the freshly added record, then `UPDATE_REP` of the new
id with a partial patch. -/
def addSelectUpdateScenario (amb₁ amb₂ amb₃ : Ambient) (s₀ : AppState)
    (payload : NewRepPayload) (patch : RepPatch) : AppState :=
  appReducer amb₃
    (appReducer amb₂ (appReducer amb₁ s₀ (.addRep payload))
      (.selectRep (some (mkNewRep amb₁ payload))))
    (.updateRep (mkNewRep amb₁ payload).id patch)

/-! ## Helper lemmas -/

theorem map_eq_self_of_mem {α : Type} :
    ∀ (l : List α) (f : α → α), (∀ x ∈ l, f x = x) → l.map f = l
  | [], _, _ => rfl
  | a :: l, f, h => by
    simp only [List.map_cons]
    rw [h a (List.mem_cons_self a l),
      map_eq_self_of_mem l f (fun x hx => h x (List.mem_cons_of_mem a hx))]

theorem updateSubtask_reps (amb : Ambient) (s : AppState) (repId : String) (stepId : Int)
    (taskId : String) (completed : Bool) :
    (appReducer amb s (.updateSubtask repId stepId taskId completed)).reps
      = s.reps.map (fun rep =>
          if rep.id == repId then
            updateSubtaskRep amb.now (s.currentUser.map (fun u => u.id))
              stepId taskId completed rep
          else rep) := rfl

theorem updateSubtask_reps_of_absent (amb : Ambient) (s : AppState) (repId : String)
    (stepId : Int) (taskId : String) (completed : Bool)
    (h : ∀ r ∈ s.reps, r.id ≠ repId) :
    (appReducer amb s (.updateSubtask repId stepId taskId completed)).reps = s.reps := by
  rw [updateSubtask_reps]
  apply map_eq_self_of_mem
  intro r hr
  simp [h r hr]

theorem updateSubtask_getElem_of_id (amb : Ambient) (s : AppState) (repId : String)
    (stepId : Int) (taskId : String) (completed : Bool) (i : Nat) (r : Rep)
    (hr : s.reps[i]? = some r) (hid : r.id = repId) :
    (appReducer amb s (.updateSubtask repId stepId taskId completed)).reps[i]?
      = some (updateSubtaskRep amb.now (s.currentUser.map (fun u => u.id))
          stepId taskId completed r) := by
  rw [updateSubtask_reps, List.getElem?_map, hr]
  simp [hid]

theorem updateSubtaskRep_milestones (now : Nat) (user : Option String) (stepId : Int)
    (taskId : String) (completed : Bool) (rep : Rep) :
    (updateSubtaskRep now user stepId taskId completed rep).milestones
      = (ensureMilestone stepId rep.milestones).map
          (updateMilestone now user stepId taskId completed) := rfl

theorem updateSubtaskRep_stage (now : Nat) (user : Option String) (stepId : Int)
    (taskId : String) (completed : Bool) (rep : Rep) :
    (updateSubtaskRep now user stepId taskId completed rep).stage
      = max rep.stage
          ((((updateSubtaskRep now user stepId taskId completed rep).milestones.filter
              (fun m => m.completed)).length : Int) + 1) := rfl

theorem updateMilestone_of_ne (now : Nat) (user : Option String) (stepId : Int)
    (taskId : String) (completed : Bool) (m : Milestone) (h : m.stepId ≠ stepId) :
    updateMilestone now user stepId taskId completed m = m := by
  simp [updateMilestone, h]

theorem updateMilestone_of_eq (now : Nat) (user : Option String) (stepId : Int)
    (taskId : String) (completed : Bool) (m : Milestone) (h : m.stepId = stepId) :
    updateMilestone now user stepId taskId completed m
      = { m with
          completed := ((ensureSubTask taskId m.subTasks).map
              (toggleSubTask now user taskId completed)).all (fun t => t.completed)
          completedAt :=
            if ((ensureSubTask taskId m.subTasks).map
                  (toggleSubTask now user taskId completed)).all (fun t => t.completed)
                && !m.completed
            then some now else m.completedAt
          completedBy :=
            if ((ensureSubTask taskId m.subTasks).map
                  (toggleSubTask now user taskId completed)).all (fun t => t.completed)
                && !m.completed
            then user else m.completedBy
          subTasks := (ensureSubTask taskId m.subTasks).map
            (toggleSubTask now user taskId completed) } := by
  simp [updateMilestone, h]

theorem updateMilestone_stepId (now : Nat) (user : Option String) (stepId : Int)
    (taskId : String) (completed : Bool) (m : Milestone) :
    (updateMilestone now user stepId taskId completed m).stepId = m.stepId := by
  by_cases h : m.stepId = stepId
  · rw [updateMilestone_of_eq now user stepId taskId completed m h]
  · rw [updateMilestone_of_ne now user stepId taskId completed m h]

theorem toggleSubTask_taskId (now : Nat) (user : Option String) (taskId : String)
    (completed : Bool) (t : SubTask) :
    (toggleSubTask now user taskId completed t).taskId = t.taskId := by
  by_cases h : t.taskId = taskId
  · simp [toggleSubTask, h]
  · simp [toggleSubTask, h]

theorem ensureMilestone_mem (stepId : Int) (ms : List Milestone) :
    ∃ m ∈ ensureMilestone stepId ms, m.stepId = stepId := by
  unfold ensureMilestone
  cases h : ms.find? (fun m => m.stepId == stepId) with
  | some m =>
    refine ⟨m, List.mem_of_find?_eq_some h, ?_⟩
    have := List.find?_some h
    simpa using this
  | none =>
    exact ⟨mkPlaceholderMilestone stepId,
      List.mem_append_right ms (List.mem_singleton.mpr rfl), rfl⟩

theorem ensureSubTask_mem (taskId : String) (ts : List SubTask) :
    ∃ t ∈ ensureSubTask taskId ts, t.taskId = taskId := by
  unfold ensureSubTask
  cases h : ts.find? (fun t => t.taskId == taskId) with
  | some t =>
    refine ⟨t, List.mem_of_find?_eq_some h, ?_⟩
    have := List.find?_some h
    simpa using this
  | none =>
    exact ⟨mkPlaceholderSubTask taskId,
      List.mem_append_right ts (List.mem_singleton.mpr rfl), rfl⟩

theorem ensureMilestone_of_absent (stepId : Int) (ms : List Milestone)
    (h : ∀ m ∈ ms, m.stepId ≠ stepId) :
    ensureMilestone stepId ms = ms ++ [mkPlaceholderMilestone stepId] := by
  unfold ensureMilestone
  have hf : ms.find? (fun m => m.stepId == stepId) = none := by
    rw [List.find?_eq_none]
    intro m hm
    simp [h m hm]
  rw [hf]

theorem ensureSubTask_of_absent (taskId : String) (ts : List SubTask)
    (h : ∀ t ∈ ts, t.taskId ≠ taskId) :
    ensureSubTask taskId ts = ts ++ [mkPlaceholderSubTask taskId] := by
  unfold ensureSubTask
  have hf : ts.find? (fun t => t.taskId == taskId) = none := by
    rw [List.find?_eq_none]
    intro t ht
    simp [h t ht]
  rw [hf]

theorem stage_mono_step (amb : Ambient) (s : AppState) (repId : String) (stepId : Int)
    (taskId : String) (completed : Bool) (j : Nat) (p : Rep)
    (hp : s.reps[j]? = some p) :
    ∃ q, (appReducer amb s (.updateSubtask repId stepId taskId completed)).reps[j]? = some q
      ∧ p.stage ≤ q.stage := by
  rw [updateSubtask_reps, List.getElem?_map, hp]
  by_cases h : p.id = repId
  · refine ⟨updateSubtaskRep amb.now (s.currentUser.map (fun u => u.id))
      stepId taskId completed p, by simp [h], ?_⟩
    rw [updateSubtaskRep_stage]
    exact le_max_left _ _
  · exact ⟨p, by simp [h], le_refl _⟩

theorem toggleSubTask_of_ne (now : Nat) (user : Option String) (taskId : String)
    (completed : Bool) (t : SubTask) (h : t.taskId ≠ taskId) :
    toggleSubTask now user taskId completed t = t := by
  simp [toggleSubTask, h]

theorem toggleSubTask_of_eq (now : Nat) (user : Option String) (taskId : String)
    (completed : Bool) (t : SubTask) (h : t.taskId = taskId) :
    toggleSubTask now user taskId completed t
      = { t with
          completed := completed
          completedAt := if completed then some now else none
          completedBy := if completed then user else none } := by
  simp [toggleSubTask, h]

theorem updateMilestone_subTasks_of_eq (now : Nat) (user : Option String) (stepId : Int)
    (taskId : String) (completed : Bool) (m : Milestone) (h : m.stepId = stepId) :
    (updateMilestone now user stepId taskId completed m).subTasks
      = (ensureSubTask taskId m.subTasks).map (toggleSubTask now user taskId completed) := by
  rw [updateMilestone_of_eq now user stepId taskId completed m h]

theorem updateMilestone_completed_of_eq (now : Nat) (user : Option String) (stepId : Int)
    (taskId : String) (completed : Bool) (m : Milestone) (h : m.stepId = stepId) :
    (updateMilestone now user stepId taskId completed m).completed
      = ((ensureSubTask taskId m.subTasks).map
          (toggleSubTask now user taskId completed)).all (fun t => t.completed) := by
  rw [updateMilestone_of_eq now user stepId taskId completed m h]

theorem updateMilestone_completedAt_of_eq (now : Nat) (user : Option String) (stepId : Int)
    (taskId : String) (completed : Bool) (m : Milestone) (h : m.stepId = stepId) :
    (updateMilestone now user stepId taskId completed m).completedAt
      = (if ((ensureSubTask taskId m.subTasks).map
              (toggleSubTask now user taskId completed)).all (fun t => t.completed)
            && !m.completed
         then some now else m.completedAt) := by
  rw [updateMilestone_of_eq now user stepId taskId completed m h]

theorem updateMilestone_completedBy_of_eq (now : Nat) (user : Option String) (stepId : Int)
    (taskId : String) (completed : Bool) (m : Milestone) (h : m.stepId = stepId) :
    (updateMilestone now user stepId taskId completed m).completedBy
      = (if ((ensureSubTask taskId m.subTasks).map
              (toggleSubTask now user taskId completed)).all (fun t => t.completed)
            && !m.completed
         then user else m.completedBy) := by
  rw [updateMilestone_of_eq now user stepId taskId completed m h]

theorem updateSubtask_selectedRep (amb : Ambient) (s : AppState) (repId : String)
    (stepId : Int) (taskId : String) (completed : Bool) :
    (appReducer amb s (.updateSubtask repId stepId taskId completed)).selectedRep
      = match s.selectedRep with
        | some sel =>
            if sel.id == repId then
              (appReducer amb s (.updateSubtask repId stepId taskId completed)).reps.find?
                (fun r => r.id == repId)
            else some sel
        | none => none := rfl

theorem appState_ext {s₁ s₂ : AppState}
    (h1 : s₁.isAuthenticated = s₂.isAuthenticated) (h2 : s₁.currentUser = s₂.currentUser)
    (h3 : s₁.userRole = s₂.userRole) (h4 : s₁.reps = s₂.reps)
    (h5 : s₁.trainers = s₂.trainers) (h6 : s₁.auditLogs = s₂.auditLogs)
    (h7 : s₁.selectedRep = s₂.selectedRep) : s₁ = s₂ := by
  cases s₁
  cases s₂
  simp_all

theorem updateRep_reps (amb : Ambient) (s : AppState) (rid : String) (updates : RepPatch) :
    (appReducer amb s (.updateRep rid updates)).reps
      = s.reps.map (fun rep =>
          if rep.id == rid then mergeRep rep updates amb.now else rep) := rfl

theorem updateRep_selectedRep (amb : Ambient) (s : AppState) (rid : String)
    (updates : RepPatch) :
    (appReducer amb s (.updateRep rid updates)).selectedRep
      = match s.selectedRep with
        | some sel =>
            if sel.id == rid then some (mergeRep sel updates amb.now) else some sel
        | none => none := rfl

theorem addRep_reps (amb : Ambient) (s : AppState) (payload : NewRepPayload) :
    (appReducer amb s (.addRep payload)).reps = s.reps ++ [mkNewRep amb payload] := rfl

theorem selectRep_reps (amb : Ambient) (s : AppState) (rep : Option Rep) :
    (appReducer amb s (.selectRep rep)).reps = s.reps := rfl

theorem selectRep_selectedRep (amb : Ambient) (s : AppState) (rep : Option Rep) :
    (appReducer amb s (.selectRep rep)).selectedRep = rep := rfl

theorem stage_mono_calls (calls : List SubtaskCall) :
    ∀ (s : AppState) (j : Nat) (p : Rep), s.reps[j]? = some p →
      ∃ q, (dispatchSubtaskCalls s calls).reps[j]? = some q ∧ p.stage ≤ q.stage := by
  induction calls with
  | nil => exact fun s j p hp => ⟨p, hp, le_refl _⟩
  | cons c cs ih =>
    intro s j p hp
    obtain ⟨q, hq, hpq⟩ :=
      stage_mono_step c.amb s c.repId c.stepId c.taskId c.completed j p hp
    obtain ⟨q', hq', hqq'⟩ := ih _ j q hq
    exact ⟨q', by simpa [dispatchSubtaskCalls] using hq', le_trans hpq hqq'⟩

/-! ## Claim theorems -/

/-- C1: for every `UPDATE_SUBTASK` dispatch that targets a rep present in the
rep list, the rep's resulting `stage` equals `max(previous stage, 1 + number
of milestones of that rep with completed = true after the update)`, and
across any sequence of `UPDATE_SUBTASK` dispatches every rep's `stage` is
non-decreasing. -/
theorem C1_stage_formula_and_monotone (amb : Ambient) (s : AppState) (repId : String)
    (stepId : Int) (taskId : String) (completed : Bool) (i : Nat) (r : Rep)
    (hr : s.reps[i]? = some r) (hid : r.id = repId) :
    (∃ r', (appReducer amb s (.updateSubtask repId stepId taskId completed)).reps[i]? = some r'
        ∧ r'.stage
            = max r.stage
                (((r'.milestones.filter (fun m => m.completed)).length : Int) + 1))
    ∧ ∀ (s₀ : AppState) (calls : List SubtaskCall) (j : Nat) (p q : Rep),
        s₀.reps[j]? = some p → (dispatchSubtaskCalls s₀ calls).reps[j]? = some q →
        p.stage ≤ q.stage := by
  constructor
  · have h1 := updateSubtask_getElem_of_id amb s repId stepId taskId completed i r hr hid
    have h2 := updateSubtaskRep_stage amb.now (s.currentUser.map (fun u => u.id))
      stepId taskId completed r
    exact ⟨_, h1, h2⟩
  · intro s₀ calls j p q hp hq
    obtain ⟨q', hq', hpq⟩ := stage_mono_calls calls s₀ j p hp
    rw [hq] at hq'
    exact (Option.some.inj hq') ▸ hpq

/-- C1 witness: the theorem applied to `sW` at index 0 with the dispatch
`UPDATE_SUBTASK("r1", 1, "t1", true)`. -/
theorem C1_stage_formula_and_monotone_witness :
    (∃ r', (appReducer ambW sW (.updateSubtask "r1" 1 "t1" true)).reps[0]? = some r'
        ∧ r'.stage
            = max repW.stage
                (((r'.milestones.filter (fun m => m.completed)).length : Int) + 1))
    ∧ ∀ (s₀ : AppState) (calls : List SubtaskCall) (j : Nat) (p q : Rep),
        s₀.reps[j]? = some p → (dispatchSubtaskCalls s₀ calls).reps[j]? = some q →
        p.stage ≤ q.stage :=
  C1_stage_formula_and_monotone ambW sW "r1" 1 "t1" true 0 repW rfl rfl

/-- C2: after every `UPDATE_SUBTASK` dispatch targeting an existing rep, a
milestone with the given step id exists, and every milestone carrying that
step id has `completed` equal to the AND over its subtasks' `completed`
flags (vacuously true on an empty subtask list, since `List.all` of `[]` is
`true`). -/
theorem C2_milestone_completed_iff_subtasks (amb : Ambient) (s : AppState) (repId : String)
    (stepId : Int) (taskId : String) (completed : Bool) (i : Nat) (r : Rep)
    (hr : s.reps[i]? = some r) (hid : r.id = repId) :
    ∃ r', (appReducer amb s (.updateSubtask repId stepId taskId completed)).reps[i]? = some r'
      ∧ (∃ m ∈ r'.milestones, m.stepId = stepId)
      ∧ ∀ m ∈ r'.milestones, m.stepId = stepId →
          m.completed = m.subTasks.all (fun t => t.completed) := by
  have h1 := updateSubtask_getElem_of_id amb s repId stepId taskId completed i r hr hid
  refine ⟨_, h1, ?_, ?_⟩
  · rw [updateSubtaskRep_milestones]
    obtain ⟨m, hm, hms⟩ := ensureMilestone_mem stepId r.milestones
    exact ⟨updateMilestone amb.now (s.currentUser.map (fun u => u.id)) stepId taskId completed m,
      List.mem_map_of_mem _ hm, by rw [updateMilestone_stepId]; exact hms⟩
  · intro m hm hms
    rw [updateSubtaskRep_milestones] at hm
    obtain ⟨m₀, hm₀, rfl⟩ := List.mem_map.mp hm
    have h0 : m₀.stepId = stepId := by
      rw [← updateMilestone_stepId amb.now (s.currentUser.map (fun u => u.id))
        stepId taskId completed m₀]
      exact hms
    rw [updateMilestone_completed_of_eq amb.now (s.currentUser.map (fun u => u.id))
        stepId taskId completed m₀ h0,
      updateMilestone_subTasks_of_eq amb.now (s.currentUser.map (fun u => u.id))
        stepId taskId completed m₀ h0]

/-- C2 witness: the theorem applied to `sW` at index 0 with the dispatch
`UPDATE_SUBTASK("r1", 1, "t1", true)`. -/
theorem C2_milestone_completed_iff_subtasks_witness :
    ∃ r', (appReducer ambW sW (.updateSubtask "r1" 1 "t1" true)).reps[0]? = some r'
      ∧ (∃ m ∈ r'.milestones, m.stepId = 1)
      ∧ ∀ m ∈ r'.milestones, m.stepId = 1 →
          m.completed = m.subTasks.all (fun t => t.completed) :=
  C2_milestone_completed_iff_subtasks ambW sW "r1" 1 "t1" true 0 repW rfl rfl

/-- C3: after every `UPDATE_SUBTASK(repId, stepId, taskId, completed)`
dispatch targeting an existing rep, every subtask carrying the given task id
inside a milestone carrying the given step id has its `completed` flag equal
to the dispatched value; when the value is `true` its `completedAt` is the
current time and `completedBy` the signed-in user's id (if any), and when
the value is `false` both stamps are cleared to `none`. -/
theorem C3_subtask_flag_and_stamps (amb : Ambient) (s : AppState) (repId : String)
    (stepId : Int) (taskId : String) (completed : Bool) (i : Nat) (r : Rep)
    (hr : s.reps[i]? = some r) (hid : r.id = repId) :
    ∃ r', (appReducer amb s (.updateSubtask repId stepId taskId completed)).reps[i]? = some r'
      ∧ ∀ m ∈ r'.milestones, m.stepId = stepId →
          ∀ t ∈ m.subTasks, t.taskId = taskId →
            t.completed = completed
            ∧ t.completedAt = (if completed then some amb.now else none)
            ∧ t.completedBy
                = (if completed then s.currentUser.map (fun u => u.id) else none) := by
  have h1 := updateSubtask_getElem_of_id amb s repId stepId taskId completed i r hr hid
  refine ⟨_, h1, ?_⟩
  intro m hm hms t ht htid
  rw [updateSubtaskRep_milestones] at hm
  obtain ⟨m₀, hm₀, rfl⟩ := List.mem_map.mp hm
  have h0 : m₀.stepId = stepId := by
    rw [← updateMilestone_stepId amb.now (s.currentUser.map (fun u => u.id))
      stepId taskId completed m₀]
    exact hms
  rw [updateMilestone_subTasks_of_eq amb.now (s.currentUser.map (fun u => u.id))
    stepId taskId completed m₀ h0] at ht
  obtain ⟨t₀, ht₀, rfl⟩ := List.mem_map.mp ht
  by_cases h1 : t₀.taskId = taskId
  · rw [toggleSubTask_of_eq amb.now (s.currentUser.map (fun u => u.id)) taskId completed t₀ h1]
    exact ⟨rfl, rfl, rfl⟩
  · exact absurd (by
      rw [← toggleSubTask_taskId amb.now (s.currentUser.map (fun u => u.id))
        taskId completed t₀]
      exact htid) h1

/-- C3 witness: the theorem applied to `sW` at index 0 with the dispatch
`UPDATE_SUBTASK("r1", 1, "t1", true)`. -/
theorem C3_subtask_flag_and_stamps_witness :
    ∃ r', (appReducer ambW sW (.updateSubtask "r1" 1 "t1" true)).reps[0]? = some r'
      ∧ ∀ m ∈ r'.milestones, m.stepId = 1 →
          ∀ t ∈ m.subTasks, t.taskId = "t1" →
            t.completed = true
            ∧ t.completedAt = (if true then some ambW.now else none)
            ∧ t.completedBy
                = (if true then sW.currentUser.map (fun u => u.id) else none) :=
  C3_subtask_flag_and_stamps ambW sW "r1" 1 "t1" true 0 repW rfl rfl

/-- C4: for every `UPDATE_SUBTASK` dispatch targeting an existing rep, a
missing milestone is synthesized as the placeholder
`{stepId, "Step N", completed := false, subTasks := []}` appended to the
milestone list, a missing subtask as the placeholder
`{taskId, "Task N", completed := false}` appended to the subtask list, and
afterwards the targeted milestone and subtask both exist. -/
theorem C4_placeholder_synthesis (amb : Ambient) (s : AppState) (repId : String)
    (stepId : Int) (taskId : String) (completed : Bool) (i : Nat) (r : Rep)
    (hr : s.reps[i]? = some r) (hid : r.id = repId) :
    ((∀ m ∈ r.milestones, m.stepId ≠ stepId) →
        ensureMilestone stepId r.milestones
          = r.milestones ++ [mkPlaceholderMilestone stepId])
    ∧ (∀ ts : List SubTask, (∀ t ∈ ts, t.taskId ≠ taskId) →
        ensureSubTask taskId ts = ts ++ [mkPlaceholderSubTask taskId])
    ∧ ∃ r', (appReducer amb s (.updateSubtask repId stepId taskId completed)).reps[i]? = some r'
        ∧ ∃ m ∈ r'.milestones, m.stepId = stepId ∧ ∃ t ∈ m.subTasks, t.taskId = taskId := by
  refine ⟨ensureMilestone_of_absent stepId r.milestones,
    fun ts => ensureSubTask_of_absent taskId ts, ?_⟩
  have h1 := updateSubtask_getElem_of_id amb s repId stepId taskId completed i r hr hid
  refine ⟨_, h1, ?_⟩
  rw [updateSubtaskRep_milestones]
  obtain ⟨m₀, hm₀, h0⟩ := ensureMilestone_mem stepId r.milestones
  refine ⟨updateMilestone amb.now (s.currentUser.map (fun u => u.id))
      stepId taskId completed m₀,
    List.mem_map_of_mem _ hm₀, ?_, ?_⟩
  · rw [updateMilestone_stepId]
    exact h0
  · rw [updateMilestone_subTasks_of_eq amb.now (s.currentUser.map (fun u => u.id))
      stepId taskId completed m₀ h0]
    obtain ⟨t₀, ht₀, ht1⟩ := ensureSubTask_mem taskId m₀.subTasks
    refine ⟨toggleSubTask amb.now (s.currentUser.map (fun u => u.id)) taskId completed t₀,
      List.mem_map_of_mem _ ht₀, ?_⟩
    rw [toggleSubTask_taskId]
    exact ht1

/-- C4 witness: the theorem applied to `sW` at index 0 with the dispatch
`UPDATE_SUBTASK("r1", 1, "t1", true)`. -/
theorem C4_placeholder_synthesis_witness :
    ((∀ m ∈ repW.milestones, m.stepId ≠ 1) →
        ensureMilestone 1 repW.milestones
          = repW.milestones ++ [mkPlaceholderMilestone 1])
    ∧ (∀ ts : List SubTask, (∀ t ∈ ts, t.taskId ≠ "t1") →
        ensureSubTask "t1" ts = ts ++ [mkPlaceholderSubTask "t1"])
    ∧ ∃ r', (appReducer ambW sW (.updateSubtask "r1" 1 "t1" true)).reps[0]? = some r'
        ∧ ∃ m ∈ r'.milestones, m.stepId = 1 ∧ ∃ t ∈ m.subTasks, t.taskId = "t1" :=
  C4_placeholder_synthesis ambW sW "r1" 1 "t1" true 0 repW rfl rfl

/-- C5: for every `UPDATE_SUBTASK` dispatch targeting an existing rep, and
every position of the rep's milestone list after the ensure step, a
milestone that ends up completed while it was not completed before gets
`completedAt = now` and `completedBy = current user id`, while a milestone
that was completed before and stays completed keeps both stamps
unchanged. -/
theorem C5_milestone_stamp_transitions (amb : Ambient) (s : AppState) (repId : String)
    (stepId : Int) (taskId : String) (completed : Bool) (i : Nat) (r : Rep)
    (hr : s.reps[i]? = some r) (hid : r.id = repId) :
    ∃ r', (appReducer amb s (.updateSubtask repId stepId taskId completed)).reps[i]? = some r'
      ∧ ∀ (j : Nat) (m₀ : Milestone),
          (ensureMilestone stepId r.milestones)[j]? = some m₀ →
          ∃ m', r'.milestones[j]? = some m'
            ∧ (m₀.completed = false → m'.completed = true →
                m'.completedAt = some amb.now
                ∧ m'.completedBy = s.currentUser.map (fun u => u.id))
            ∧ (m₀.completed = true → m'.completed = true →
                m'.completedAt = m₀.completedAt ∧ m'.completedBy = m₀.completedBy) := by
  have h1 := updateSubtask_getElem_of_id amb s repId stepId taskId completed i r hr hid
  refine ⟨_, h1, ?_⟩
  intro j m₀ hj
  rw [updateSubtaskRep_milestones, List.getElem?_map, hj, Option.map_some']
  refine ⟨updateMilestone amb.now (s.currentUser.map (fun u => u.id))
      stepId taskId completed m₀, rfl, ?_, ?_⟩
  · intro hfalse htrue
    by_cases h0 : m₀.stepId = stepId
    · have hall : ((ensureSubTask taskId m₀.subTasks).map
          (toggleSubTask amb.now (s.currentUser.map (fun u => u.id)) taskId completed)).all
            (fun t => t.completed) = true := by
        rw [updateMilestone_completed_of_eq amb.now (s.currentUser.map (fun u => u.id))
          stepId taskId completed m₀ h0] at htrue
        exact htrue
      rw [updateMilestone_completedAt_of_eq amb.now (s.currentUser.map (fun u => u.id))
          stepId taskId completed m₀ h0,
        updateMilestone_completedBy_of_eq amb.now (s.currentUser.map (fun u => u.id))
          stepId taskId completed m₀ h0,
        hall, hfalse]
      exact ⟨rfl, rfl⟩
    · rw [updateMilestone_of_ne amb.now (s.currentUser.map (fun u => u.id))
        stepId taskId completed m₀ h0] at htrue
      rw [hfalse] at htrue
      cases htrue
  · intro htrue h2true
    by_cases h0 : m₀.stepId = stepId
    · rw [updateMilestone_completedAt_of_eq amb.now (s.currentUser.map (fun u => u.id))
          stepId taskId completed m₀ h0,
        updateMilestone_completedBy_of_eq amb.now (s.currentUser.map (fun u => u.id))
          stepId taskId completed m₀ h0,
        htrue]
      simp
    · rw [updateMilestone_of_ne amb.now (s.currentUser.map (fun u => u.id))
        stepId taskId completed m₀ h0]
      exact ⟨rfl, rfl⟩

/-- C5 witness: the theorem applied to `sW` at index 0 with the dispatch
`UPDATE_SUBTASK("r1", 1, "t1", true)`. -/
theorem C5_milestone_stamp_transitions_witness :
    ∃ r', (appReducer ambW sW (.updateSubtask "r1" 1 "t1" true)).reps[0]? = some r'
      ∧ ∀ (j : Nat) (m₀ : Milestone),
          (ensureMilestone 1 repW.milestones)[j]? = some m₀ →
          ∃ m', r'.milestones[j]? = some m'
            ∧ (m₀.completed = false → m'.completed = true →
                m'.completedAt = some ambW.now
                ∧ m'.completedBy = sW.currentUser.map (fun u => u.id))
            ∧ (m₀.completed = true → m'.completed = true →
                m'.completedAt = m₀.completedAt ∧ m'.completedBy = m₀.completedBy) :=
  C5_milestone_stamp_transitions ambW sW "r1" 1 "t1" true 0 repW rfl rfl

/-- C6: an `UPDATE_SUBTASK` dispatch whose rep id matches no rep leaves the
rep list unchanged (the reducer is total, so no error can be raised). -/
theorem C6_absent_rep_reps_unchanged (amb : Ambient) (s : AppState) (repId : String)
    (stepId : Int) (taskId : String) (completed : Bool)
    (h : ∀ r ∈ s.reps, r.id ≠ repId) :
    (appReducer amb s (.updateSubtask repId stepId taskId completed)).reps = s.reps :=
  updateSubtask_reps_of_absent amb s repId stepId taskId completed h

/-- C6 witness: the theorem applied to `sW` with the unknown rep id `zz`. -/
theorem C6_absent_rep_reps_unchanged_witness :
    (appReducer ambW sW (.updateSubtask "zz" 1 "t1" true)).reps = sW.reps :=
  C6_absent_rep_reps_unchanged ambW sW "zz" 1 "t1" true (by decide)

/-- C7 counterexample: with the rep list holding only `repW` (id `r1`) and
the selection holding `ghostRep` (id `gh`, absent from the list), the
dispatch `UPDATE_REP("gh", patchB)` matches no rep in the list, yet the
state changes, because the selection is still merged. -/
theorem C7_counterexample_ghost_selection :
    (∀ r ∈ sGhost.reps, r.id ≠ "gh")
    ∧ appReducer ambW sGhost (.updateRep "gh" patchB) ≠ sGhost := by
  constructor
  · decide
  · decide

/-- C7 (amended): `UPDATE_REP(id, updates)` merges the given fields into
every rep whose id matches and refreshes its `updatedAt`; reps with other
ids are untouched, so when no rep matches the rep list is unchanged; the
whole state is unchanged only when additionally the selected rep (if any)
does not carry the target id — when the selection carries the id, the
identical merge is applied to it, even if no rep in the list matches; and
after `ADD_REP`, `SELECT_REP` of the new record, then `UPDATE_REP` with a
patch, the selected rep equals the rep-list entry of the new record. -/
theorem C7_update_rep_merge (amb : Ambient) (s : AppState) (rid : String)
    (updates : RepPatch) :
    (∀ (i : Nat) (r : Rep), s.reps[i]? = some r →
        ∃ r', (appReducer amb s (.updateRep rid updates)).reps[i]? = some r'
          ∧ (r.id = rid →
              r'.id = updates.id.getD r.id
              ∧ r'.name = updates.name.getD r.name
              ∧ r'.stage = updates.stage.getD r.stage
              ∧ r'.milestones = updates.milestones.getD r.milestones
              ∧ r'.createdAt = updates.createdAt.getD r.createdAt
              ∧ r'.updatedAt = amb.now)
          ∧ (r.id ≠ rid → r' = r))
    ∧ ((∀ r ∈ s.reps, r.id ≠ rid) →
        (appReducer amb s (.updateRep rid updates)).reps = s.reps)
    ∧ ((∀ r ∈ s.reps, r.id ≠ rid) →
        (∀ sel, s.selectedRep = some sel → sel.id ≠ rid) →
        appReducer amb s (.updateRep rid updates) = s)
    ∧ (∀ sel, s.selectedRep = some sel → sel.id = rid →
        (appReducer amb s (.updateRep rid updates)).selectedRep
          = some (mergeRep sel updates amb.now))
    ∧ ∀ (amb₁ amb₂ amb₃ : Ambient) (s₀ : AppState) (payload : NewRepPayload)
        (patch : RepPatch),
        (∀ r ∈ s₀.reps, r.id ≠ amb₁.freshId) →
        (addSelectUpdateScenario amb₁ amb₂ amb₃ s₀ payload patch).selectedRep
          = (addSelectUpdateScenario amb₁ amb₂ amb₃ s₀ payload patch).reps[s₀.reps.length]?
        ∧ (addSelectUpdateScenario amb₁ amb₂ amb₃ s₀ payload patch).selectedRep
          = some (mergeRep (mkNewRep amb₁ payload) patch amb₃.now) := by
  have hreps_unchanged : (∀ r ∈ s.reps, r.id ≠ rid) →
      (appReducer amb s (.updateRep rid updates)).reps = s.reps := by
    intro habs
    rw [updateRep_reps]
    apply map_eq_self_of_mem
    intro r hr
    simp [habs r hr]
  refine ⟨?_, hreps_unchanged, ?_, ?_, ?_⟩
  · intro i r hri
    rw [updateRep_reps, List.getElem?_map, hri, Option.map_some']
    by_cases h : r.id = rid
    · have hc : (r.id == rid) = true := by simp [h]
      rw [hc, if_pos rfl]
      exact ⟨mergeRep r updates amb.now, rfl,
        fun _ => ⟨rfl, rfl, rfl, rfl, rfl, rfl⟩, fun hne => absurd h hne⟩
    · have hc : (r.id == rid) = false := by simp [h]
      rw [hc, if_neg (by simp)]
      exact ⟨r, rfl, fun heq => absurd heq h, fun _ => rfl⟩
  · intro habs hsel
    refine appState_ext rfl rfl rfl (hreps_unchanged habs) rfl rfl ?_
    rw [updateRep_selectedRep]
    cases hs : s.selectedRep with
    | none => rfl
    | some sel => simp [hsel sel hs]
  · intro sel hs hid
    rw [updateRep_selectedRep, hs]
    simp [hid]
  · intro amb₁ amb₂ amb₃ s₀ payload patch habs
    have hsel3 : (addSelectUpdateScenario amb₁ amb₂ amb₃ s₀ payload patch).selectedRep
        = some (mergeRep (mkNewRep amb₁ payload) patch amb₃.now) := by
      unfold addSelectUpdateScenario
      rw [updateRep_selectedRep, selectRep_selectedRep]
      simp
    have hlist3 : (addSelectUpdateScenario amb₁ amb₂ amb₃ s₀ payload patch).reps[s₀.reps.length]?
        = some (mergeRep (mkNewRep amb₁ payload) patch amb₃.now) := by
      unfold addSelectUpdateScenario
      rw [updateRep_reps, List.getElem?_map, selectRep_reps, addRep_reps,
        List.getElem?_concat_length, Option.map_some']
      simp
    exact ⟨hsel3.trans hlist3.symm, hsel3⟩

/-- C7 witness: the amended theorem applied to `sW` with the dispatch
`UPDATE_REP("r1", patchB)`, including the add-select-update scenario at
concrete inputs. -/
theorem C7_update_rep_merge_witness :
    (∃ r', (appReducer ambW sW (.updateRep "r1" patchB)).reps[0]? = some r'
      ∧ (repW.id = "r1" →
          r'.id = patchB.id.getD repW.id
          ∧ r'.name = patchB.name.getD repW.name
          ∧ r'.stage = patchB.stage.getD repW.stage
          ∧ r'.milestones = patchB.milestones.getD repW.milestones
          ∧ r'.createdAt = patchB.createdAt.getD repW.createdAt
          ∧ r'.updatedAt = ambW.now)
      ∧ (repW.id ≠ "r1" → r' = repW))
    ∧ ((addSelectUpdateScenario ambW ambW ambW sW
          { name := "N", stage := 1, milestones := [] } patchB).selectedRep
        = (addSelectUpdateScenario ambW ambW ambW sW
            { name := "N", stage := 1, milestones := [] } patchB).reps[sW.reps.length]?) :=
  ⟨(C7_update_rep_merge ambW sW "r1" patchB).1 0 repW rfl,
    ((C7_update_rep_merge ambW sW "r1" patchB).2.2.2.2 ambW ambW ambW sW
      { name := "N", stage := 1, milestones := [] } patchB (by decide)).1⟩

/-- C8: `createMilestoneFromStep` returns `none` when no catalog entry
carries the step id; when the lookup finds an entry it returns a milestone
with that entry's title, `completed = false`, and a subtask list matching
the entry's subtask definitions one-for-one in order, each with
`completed = false` and no stamps; and whenever some entry carries the step
id the lookup does find one. -/
theorem C8_createMilestoneFromStep_spec (steps : List ChecklistStep) (stepId : Int) :
    ((∀ st ∈ steps, st.stepId ≠ stepId) → createMilestoneFromStep steps stepId = none)
    ∧ ((∃ st ∈ steps, st.stepId = stepId) → ∃ st, getStepById steps stepId = some st)
    ∧ ∀ st, getStepById steps stepId = some st →
        ∃ m, createMilestoneFromStep steps stepId = some m
          ∧ m.stepId = stepId ∧ m.title = st.title ∧ m.completed = false
          ∧ m.subTasks.length = st.subTasks.length
          ∧ ∀ (j : Nat) (t : ChecklistTaskDef), st.subTasks[j]? = some t →
              m.subTasks[j]? = some
                { taskId := t.taskId, description := t.description
                  completed := false, completedAt := none, completedBy := none } := by
  refine ⟨?_, ?_, ?_⟩
  · intro h
    have hf : getStepById steps stepId = none := by
      unfold getStepById
      rw [List.find?_eq_none]
      intro st hst
      simp [h st hst]
    unfold createMilestoneFromStep
    rw [hf]
  · intro ⟨st, hst, hid⟩
    cases hfind : getStepById steps stepId with
    | some st1 => exact ⟨st1, rfl⟩
    | none =>
      unfold getStepById at hfind
      rw [List.find?_eq_none] at hfind
      have := hfind st hst
      simp [hid] at this
  · intro st hst
    unfold createMilestoneFromStep
    rw [hst]
    refine ⟨_, rfl, rfl, rfl, rfl, List.length_map _ _, ?_⟩
    intro j t hj
    rw [List.getElem?_map, hj, Option.map_some']

/-- C8 witness: the theorem applied to a one-entry catalog, exercising both
the absent step id 2 and the present step id 1. -/
theorem C8_createMilestoneFromStep_spec_witness :
    ((∀ st ∈ [stepC], st.stepId ≠ 2) → createMilestoneFromStep [stepC] 2 = none)
    ∧ ∀ st, getStepById [stepC] 1 = some st →
        ∃ m, createMilestoneFromStep [stepC] 1 = some m
          ∧ m.stepId = 1 ∧ m.title = st.title ∧ m.completed = false
          ∧ m.subTasks.length = st.subTasks.length
          ∧ ∀ (j : Nat) (t : ChecklistTaskDef), st.subTasks[j]? = some t →
              m.subTasks[j]? = some
                { taskId := t.taskId, description := t.description
                  completed := false, completedAt := none, completedBy := none } :=
  ⟨(C8_createMilestoneFromStep_spec [stepC] 2).1,
    (C8_createMilestoneFromStep_spec [stepC] 1).2.2⟩

/-- C9: `ADD_AUDIT_LOG` builds a record whose id and timestamp are assigned
at creation from the ambient clock, places it at index 0, grows the log by
exactly one, and leaves every pre-existing entry at its old relative
position unchanged. -/
theorem C9_audit_log_prepend (amb : Ambient) (s : AppState) (entry : String) :
    (appReducer amb s (.addAuditLog entry)).auditLogs[0]?
        = some { id := amb.now, timestamp := amb.now, entry := entry }
    ∧ (appReducer amb s (.addAuditLog entry)).auditLogs.length = s.auditLogs.length + 1
    ∧ ∀ i : Nat,
        (appReducer amb s (.addAuditLog entry)).auditLogs[i + 1]? = s.auditLogs[i]? := by
  refine ⟨?_, ?_, ?_⟩
  · show ({ id := amb.now, timestamp := amb.now, entry := entry } :: s.auditLogs)[0]?
      = some { id := amb.now, timestamp := amb.now, entry := entry }
    rw [List.getElem?_cons_zero]
  · show ({ id := amb.now, timestamp := amb.now, entry := entry } :: s.auditLogs).length
      = s.auditLogs.length + 1
    rw [List.length_cons]
  · intro i
    show ({ id := amb.now, timestamp := amb.now, entry := entry } :: s.auditLogs)[i + 1]?
      = s.auditLogs[i]?
    rw [List.getElem?_cons_succ]

/-- C10: an `UPDATE_SUBTASK` dispatch whose rep id equals the selected rep's
id but matches no rep in the rep list clears the selection to `none`, while
the rep list itself is unchanged. -/
theorem C10_ghost_selection_cleared (amb : Ambient) (s : AppState) (repId : String)
    (stepId : Int) (taskId : String) (completed : Bool) (sel : Rep)
    (hsel : s.selectedRep = some sel) (hid : sel.id = repId)
    (habs : ∀ r ∈ s.reps, r.id ≠ repId) :
    (appReducer amb s (.updateSubtask repId stepId taskId completed)).selectedRep = none
    ∧ (appReducer amb s (.updateSubtask repId stepId taskId completed)).reps = s.reps := by
  have hreps := updateSubtask_reps_of_absent amb s repId stepId taskId completed habs
  refine ⟨?_, hreps⟩
  rw [updateSubtask_selectedRep, hsel]
  have hc : (sel.id == repId) = true := by simp [hid]
  show (if (sel.id == repId) = true then
      (appReducer amb s (.updateSubtask repId stepId taskId completed)).reps.find?
        (fun r => r.id == repId)
    else some sel) = none
  rw [hc, if_pos rfl, hreps, List.find?_eq_none]
  intro r hr
  simp [habs r hr]

/-- C10 witness: the theorem applied to `sGhost`, whose selection `ghostRep`
(id `gh`) appears in no rep-list entry. -/
theorem C10_ghost_selection_cleared_witness :
    (appReducer ambW sGhost (.updateSubtask "gh" 1 "t1" true)).selectedRep = none
    ∧ (appReducer ambW sGhost (.updateSubtask "gh" 1 "t1" true)).reps = sGhost.reps :=
  C10_ghost_selection_cleared ambW sGhost "gh" 1 "t1" true ghostRep rfl rfl (by decide)

end TenacityTracker
